import Mathlib

/-!
Verification of the weekly timetable generation engine of the
`ai_students_performace` repository.

The embedding below translates, from the Python source:
  - `src/timetable/solver.py` (calendar constants, quota computation,
    `generate_timetable_for_class` - the CP-SAT constraint model, the
    solve step, and the round-robin teacher write loop);
  - `src/timetable/management/commands/seed_timetables.py`
    (the combined whole-school seeding run);
  - `src/timetable/views.py` (`timetable_regenerate_for_class`,
    `class_timetable_view`);
  - `src/timetable/models.py` (`TimetableEntry`).

The CP-SAT solver (`ortools`) is an external collaborator: a run of it is
modelled as an oracle value `Option (Nat → Nat → Nat → Bool)`: `none` when
the solver reports infeasibility, `some x` when it returns the boolean
assignment `x d_idx p_idx s_idx`.  Theorems about successful runs carry the
hypothesis `solutionFeasible x subjects`, i.e. that the returned assignment
satisfies the constraints `generate_timetable_for_class` posts on the model
(which CP-SAT guarantees for any assignment it reports feasible).
-/

/-- Model of `DAYS` from `src/timetable/solver.py`: `(day_code, label)` pairs. -/
def DAYS : List (Nat × String) :=
  [(0, "Monday"), (1, "Tuesday"), (2, "Wednesday"), (3, "Thursday"), (4, "Friday")]

/-- Model of `PERIODS` from `src/timetable/solver.py`: 6 periods per day. -/
def PERIODS : List Nat := [1, 2, 3, 4, 5, 6]

/-- Value of `num_days` as computed in `generate_timetable_for_class`. -/
def num_days : Nat := DAYS.length

/-- Value of `num_periods` as computed in `generate_timetable_for_class`. -/
def num_periods : Nat := PERIODS.length

/-- Value of `total_slots = num_days * num_periods`. -/
def total_slots : Nat := num_days * num_periods

/-- A `Subject` row (`assessments.models.Subject`): primary key and name.
The subject list handed to the solver is already ordered by name
(`Subject.objects.order_by("name")`). -/
structure Subject where
  id : Nat
  name : String
deriving DecidableEq, Repr

/-- A `TimetableEntry` row (`src/timetable/models.py`); `subject` and
`teacher` hold the referenced primary keys. -/
structure TimetableEntry where
  school_class : Nat
  day_of_week : Nat
  period : Nat
  subject : Nat
  teacher : Nat
deriving DecidableEq, Repr

/-- Model of `_compute_sessions_per_subject` from `src/timetable/solver.py`:
the returned dict `subj.id -> sessions` is modelled as the association list
built in enumeration order. -/
def _compute_sessions_per_subject (subjects : List Subject) (slots : Nat) :
    List (Nat × Nat) :=
  let num_subjects := subjects.length
  let base := slots / num_subjects
  let remainder := slots % num_subjects
  subjects.enum.map (fun p => (p.2.id, base + if p.1 < remainder then 1 else 0))

/-- The per-index session count produced by `_compute_sessions_per_subject`:
`base + (1 if idx < remainder else 0)`. -/
def quotaFor (num_subjects slots idx : Nat) : Nat :=
  slots / num_subjects + if idx < slots % num_subjects then 1 else 0

/-- The quota values of a run, in subject order. -/
def quotaList (num_subjects slots : Nat) : List Nat :=
  (List.range num_subjects).map (quotaFor num_subjects slots)

/-! The combined seeding run:
`src/timetable/management/commands/seed_timetables.py`, `Command.handle`.
Below, `classes` is the ordered list of `SchoolClass` primary keys,
`subjects` the name-ordered subject rows, `teachers` the username-ordered
teacher primary keys. -/

/-- Constant `DAYS` local to `Command.handle`. -/
def SEED_DAYS : List Nat := [0, 1, 2, 3, 4]

/-- Constant `PERIODS` local to `Command.handle`. -/
def SEED_PERIODS : List Nat := [1, 2, 3, 4, 5, 6]

/-- Value `teacher_idx` as computed inside the seeding loop:
`(day_index * len(PERIODS) + period_index + class_teacher_offset) % teacher_count`
with `class_teacher_offset = idx % teacher_count` for the class at position
`idx` in the class list. -/
def seedTeacherIdx (classIdx day_index period_index teacher_count : Nat) : Nat :=
  (day_index * SEED_PERIODS.length + period_index + classIdx % teacher_count)
    % teacher_count

/-- Value `subj_idx` as computed inside the seeding loop. -/
def seedSubjectIdx (classIdx day_index period_index subject_count : Nat) : Nat :=
  (day_index * SEED_PERIODS.length + period_index + classIdx % subject_count)
    % subject_count

/-- Model of `Command.handle` from `seed_timetables.py`: on any of the three
empty catalogs it stops with the written error message; otherwise it replaces
all `TimetableEntry` rows with the rotation-generated grid for every class. -/
def seed_timetables (classes : List Nat) (subjects : List Subject)
    (teachers : List Nat) : Except String (List TimetableEntry) :=
  if classes.isEmpty then
    .error "No SchoolClass records found. Seed classes first."
  else if subjects.length = 0 then
    .error "No subjects found. Seed subjects first."
  else if teachers.length = 0 then
    .error "No teacher users found (role=TEACHER). Seed teachers first."
  else
    .ok <| classes.enum.flatMap (fun ci =>
      SEED_DAYS.enum.flatMap (fun di =>
        SEED_PERIODS.enum.map (fun pi =>
          { school_class := ci.2
            day_of_week := di.2
            period := pi.2
            subject := (subjects.getD (seedSubjectIdx ci.1 di.1 pi.1 subjects.length)
                ⟨0, ""⟩).id
            teacher := teachers.getD (seedTeacherIdx ci.1 di.1 pi.1 teachers.length) 0 })))

/-! Per-class generation, `src/timetable/solver.py`. -/

/-- A raised Python exception: its class and its message.
The function `generate_timetable_for_class` raises `ValueError` for the two
empty-catalog checks and `RuntimeError` when CP-SAT reports no feasible
solution. -/
inductive GenError where
  | valueError (msg : String)
  | runtimeError (msg : String)
deriving DecidableEq, Repr

/-- Message of the empty-subject-set `ValueError` in the source. -/
def msgNoSubjects : String :=
  "No Subject records found. Seed subjects before generating timetable."

/-- Message of the empty-teacher-set `ValueError` in the source. -/
def msgNoTeachers : String :=
  "No teachers with role=TEACHER found. Seed teachers before generating timetable."

/-- Message of the infeasibility `RuntimeError` in the source. -/
def msgInfeasible : String :=
  "No feasible timetable found by OR-Tools for this class."

/-- The inner loop of the write phase: scan `enumerate(subjects)` and take the
first subject whose indicator `x[(d_idx, p_idx, s_idx)]` is 1 (the `break`). -/
def pickSubject (x : Nat → Nat → Nat → Bool) (subjects : List Subject)
    (d_idx p_idx : Nat) : Option Subject :=
  (subjects.enum.find? (fun si => x d_idx p_idx si.1)).map Prod.snd

/-- The slot iteration order of the write phase:
`for d_idx, (day_code, _) in enumerate(DAYS): for p_idx, period in
enumerate(PERIODS)`. Each element is `((d_idx, day_code), (p_idx, period))`. -/
def slotSequence : List ((Nat × Nat) × (Nat × Nat)) :=
  DAYS.enum.flatMap (fun d => PERIODS.enum.map (fun p => ((d.1, d.2.1), p)))

/-- The write phase of `generate_timetable_for_class`: walk the slots in
order, pick the solved subject per slot (skipping a slot if no indicator is
set, mirroring the `if chosen_subject is None: continue` guard), and bind
`teachers[teacher_counter % teacher_count]`, advancing the counter only when
an entry is written. -/
def writeLoop (sc : Nat) (subjects : List Subject) (teachers : List Nat)
    (x : Nat → Nat → Nat → Bool) :
    List ((Nat × Nat) × (Nat × Nat)) → Nat → List TimetableEntry
  | [], _ => []
  | s :: rest, teacher_counter =>
    match pickSubject x subjects s.1.1 s.2.1 with
    | none => writeLoop sc subjects teachers x rest teacher_counter
    | some subj =>
      { school_class := sc
        day_of_week := s.1.2
        period := s.2.2
        subject := subj.id
        teacher := teachers.getD (teacher_counter % teachers.length) 0 }
        :: writeLoop sc subjects teachers x rest (teacher_counter + 1)

/-- The rows created by the write phase for one class. -/
def buildEntries (sc : Nat) (subjects : List Subject) (teachers : List Nat)
    (x : Nat → Nat → Nat → Bool) : List TimetableEntry :=
  writeLoop sc subjects teachers x slotSequence 0

/-- The `(d_idx, p_idx)` grid the constraint-building loops range over. -/
def allSlotPairs : List (Nat × Nat) :=
  (List.range num_days).flatMap (fun d =>
    (List.range num_periods).map (fun p => (d, p)))

/-- The CP-SAT constraints `generate_timetable_for_class` posts: every slot
has exactly one subject indicator set, and each subject's indicator count
over the week equals `sessions_per_subject[subj.id]`.  An assignment the
solver reports `OPTIMAL` or `FEASIBLE` satisfies exactly these. -/
def solutionFeasible (x : Nat → Nat → Nat → Bool) (subjects : List Subject) :
    Prop :=
  (∀ dp ∈ allSlotPairs,
      (List.range subjects.length).countP (fun s => x dp.1 dp.2 s) = 1) ∧
  (∀ si ∈ subjects.enum,
      (_compute_sessions_per_subject subjects total_slots).lookup si.2.id
        = some (allSlotPairs.countP (fun dp => x dp.1 dp.2 si.1)))

instance solutionFeasibleDecidable (x : Nat → Nat → Nat → Bool)
    (subjects : List Subject) : Decidable (solutionFeasible x subjects) := by
  unfold solutionFeasible
  exact inferInstance

/-- Model of `generate_timetable_for_class`: empty-catalog checks, then the
solve (the oracle `solve` is CP-SAT's outcome), then the atomic write phase.
Failure paths create no entries. -/
def generate_timetable_for_class (school_class : Nat) (subjects : List Subject)
    (teachers : List Nat) (solve : Option (Nat → Nat → Nat → Bool)) :
    Except GenError (List TimetableEntry) :=
  if subjects.isEmpty then .error (.valueError msgNoSubjects)
  else if teachers.isEmpty then .error (.valueError msgNoTeachers)
  else
    match solve with
    | none => .error (.runtimeError msgInfeasible)
    | some x => .ok (buildEntries school_class subjects teachers x)

/-- A canonical exact-quota placement: subject `j` written `quotaFor j`
times, in subject order; position `n` of this list is the subject of the
slot with row-major rank `n`.  Used to witness solvability of the model. -/
def canonicalSubjectList (num_subjects slots : Nat) : List Nat :=
  (List.range num_subjects).flatMap (fun j =>
    List.replicate (quotaFor num_subjects slots j) j)

/-- The indicator assignment read off `canonicalSubjectList`. -/
def canonicalAssign (num_subjects slots : Nat) : Nat → Nat → Nat → Bool :=
  fun d p s =>
    (canonicalSubjectList num_subjects slots).getD (d * num_periods + p) 0 == s

/-! The regeneration view, `src/timetable/views.py`. -/

/-- Model of `TimetableEntry.objects.filter(school_class=school_class).delete()`. -/
def deleteClassEntries (sc : Nat) (db : List TimetableEntry) :
    List TimetableEntry :=
  db.filter (fun e => e.school_class != sc)

/-- Model of `timetable_regenerate_for_class` (POST path): the delete of the
existing rows commits first, on its own; only then is the generator called,
whose insert phase is a single transaction.  Returns the view outcome and
the resulting database contents. -/
def timetable_regenerate_for_class (sc : Nat) (db : List TimetableEntry)
    (subjects : List Subject) (teachers : List Nat)
    (solve : Option (Nat → Nat → Nat → Bool)) :
    Except GenError (List TimetableEntry) × List TimetableEntry :=
  let db1 := deleteClassEntries sc db
  match generate_timetable_for_class sc subjects teachers solve with
  | .error e => (.error e, db1)
  | .ok newEntries => (.ok newEntries, db1 ++ newEntries)

/-! The by-class query view, `src/timetable/views.py`. -/

/-- A Python value in `range(...)` argument position: the views pass either
an `int` or one of the module-level list constants. -/
inductive PyVal where
  | int (n : Nat)
  | intList (xs : List Nat)
  | pairList (xs : List (Nat × String))
deriving DecidableEq, Repr

/-- The module-level `DAYS` of `views.py` (same value as the solver's). -/
def VIEWS_DAYS : List (Nat × String) := DAYS

/-- The module-level `PERIODS` of `views.py`. -/
def VIEWS_PERIODS : List Nat := [1, 2, 3, 4, 5, 6]

/-- An exception escaping a view. -/
inductive ViewError where
  | doesNotExist
  | typeError (msg : String)
deriving DecidableEq, Repr

/-- Message of the `TypeError` CPython raises for `range(<list>)`. -/
def msgRangeOfList : String := "list object cannot be interpreted as an integer"

/-- Python `range(v)`: succeeds on an `int`, raises `TypeError` on a list. -/
def pyRange : PyVal → Except ViewError (List Nat)
  | .int n => .ok (List.range n)
  | .intList _ => .error (.typeError msgRangeOfList)
  | .pairList _ => .error (.typeError msgRangeOfList)

/-- Model of `class_timetable_view`: fetch the class (`DoesNotExist` when
absent), fetch its entries, then build
`grid = [[None for _ in range(PERIODS)] for _ in range(DAYS)]`.
The outer `range(DAYS)` is evaluated first and raises.  The entry-placement
loop that follows the grid comprehension in the source is unreachable and
therefore not modelled. -/
def class_timetable_view (class_id : Nat) (classes : List Nat)
    (db : List TimetableEntry) :
    Except ViewError (List (List (Option TimetableEntry))) := do
  if class_id ∈ classes then
    let _entries := db.filter (fun e => e.school_class == class_id)
    let outer ← pyRange (PyVal.pairList VIEWS_DAYS)
    let grid ← outer.mapM (fun _ => do
      let inner ← pyRange (PyVal.intList VIEWS_PERIODS)
      pure (inner.map (fun _ => (none : Option TimetableEntry))))
    pure grid
  else
    throw ViewError.doesNotExist

/-! Helper lemmas. -/

theorem compute_sessions_eq_quotaFor (subjects : List Subject) (slots : Nat) :
    _compute_sessions_per_subject subjects slots
      = subjects.enum.map (fun p => (p.2.id, quotaFor subjects.length slots p.1)) := rfl

theorem compute_sessions_values (subjects : List Subject) (slots : Nat) :
    (_compute_sessions_per_subject subjects slots).map Prod.snd
      = quotaList subjects.length slots := by
  rw [compute_sessions_eq_quotaFor]
  rw [List.map_map, quotaList]
  rw [show (Prod.snd ∘ fun p : Nat × Subject =>
        (p.2.id, quotaFor subjects.length slots p.1))
      = (quotaFor subjects.length slots) ∘ Prod.fst from rfl]
  rw [← List.map_map, List.enum_map_fst]

theorem sum_base_ite (n b r : Nat) :
    ((List.range n).map (fun i => b + if i < r then 1 else 0)).sum
      = n * b + min r n := by
  induction n with
  | zero => simp
  | succ n ih =>
    rw [List.range_succ, List.map_append, List.sum_append, ih]
    simp only [List.map_cons, List.map_nil, List.sum_cons, List.sum_nil, Nat.succ_mul]
    rcases lt_or_ge n r with h | h
    · rw [if_pos h, (by omega : min r n = n), (by omega : min r (n + 1) = n + 1)]
      omega
    · rw [if_neg (by omega : ¬ n < r), (by omega : min r n = r),
        (by omega : min r (n + 1) = r)]
      omega

theorem quotaList_sum (num_subjects slots : Nat) (h : 0 < num_subjects) :
    (quotaList num_subjects slots).sum = slots := by
  have hr : slots % num_subjects < num_subjects := Nat.mod_lt _ h
  rw [quotaList]
  rw [show (quotaFor num_subjects slots)
      = (fun i => slots / num_subjects + if i < slots % num_subjects then 1 else 0)
      from rfl]
  rw [sum_base_ite]
  rw [(by omega : min (slots % num_subjects) num_subjects = slots % num_subjects)]
  exact Nat.div_add_mod slots num_subjects

/-! Claim C4. -/

/-- C4: for every non-empty subject list of size S and slot total T, every
subject receives floor(T / S) sessions, with one extra session for exactly
the first T mod S subjects in the fixed sorted order, and the quotas sum to
exactly T. -/
theorem quota_floor_remainder_sum (subjects : List Subject) (slots : Nat)
    (h : subjects ≠ []) :
    ((_compute_sessions_per_subject subjects slots).map Prod.snd
        = (List.range subjects.length).map (fun i =>
            slots / subjects.length
              + if i < slots % subjects.length then 1 else 0)) ∧
    ((_compute_sessions_per_subject subjects slots).map Prod.snd).sum = slots := by
  have hpos : 0 < subjects.length := List.length_pos.mpr h
  constructor
  · rw [compute_sessions_values]; rfl
  · rw [compute_sessions_values]; exact quotaList_sum _ _ hpos

theorem quota_floor_remainder_sum_witness :
    ((_compute_sessions_per_subject
          [⟨1, "English"⟩, ⟨2, "Hindi"⟩, ⟨3, "Maths"⟩, ⟨4, "Science"⟩] 30).map
        Prod.snd = [8, 8, 7, 7]) ∧
    ((_compute_sessions_per_subject
          [⟨1, "English"⟩, ⟨2, "Hindi"⟩, ⟨3, "Maths"⟩, ⟨4, "Science"⟩] 30).map
        Prod.snd).sum = 30 :=
  ⟨by decide,
   (quota_floor_remainder_sum
      [⟨1, "English"⟩, ⟨2, "Hindi"⟩, ⟨3, "Maths"⟩, ⟨4, "Science"⟩] 30 (by decide)).2⟩

/-! Claim C8. -/

/-- C8 counterexample: with 3 subjects and 2 slots (S greater than T) the
quota computation returns normally and gives the third subject a quota of 0
sessions; it is not rejected as a configuration error. -/
theorem quota_overfull_no_failfast_cex :
    _compute_sessions_per_subject [⟨1, "A1"⟩, ⟨2, "B2"⟩, ⟨3, "C3"⟩] 2
      = [(1, 1), (2, 1), (3, 0)] := by decide

/-- C8 amended: when the subject count equals the slot count T (T positive)
every subject receives exactly one session; when the subject count exceeds
T the computation does not fail fast: it assigns one session to the first T
subjects and zero sessions to the rest. -/
theorem quota_boundary_behavior (subjects : List Subject) (slots : Nat) :
    (subjects.length = slots → 0 < slots →
      (_compute_sessions_per_subject subjects slots).map Prod.snd
        = List.replicate slots 1) ∧
    (slots < subjects.length →
      (_compute_sessions_per_subject subjects slots).map Prod.snd
        = (List.range subjects.length).map (fun i => if i < slots then 1 else 0)) := by
  constructor
  · intro hlen hpos
    rw [compute_sessions_values, hlen, quotaList]
    rw [show quotaFor slots slots = fun _ => 1 from by
      funext i
      simp [quotaFor, Nat.div_self hpos, Nat.mod_self]]
    simp [List.map_const']
  · intro hlt
    rw [compute_sessions_values, quotaList]
    rw [show quotaFor subjects.length slots = fun i => if i < slots then 1 else 0 from by
      funext i
      simp [quotaFor, Nat.div_eq_of_lt hlt, Nat.mod_eq_of_lt hlt]]

theorem quota_boundary_behavior_witness :
    ((_compute_sessions_per_subject [⟨1, "A1"⟩, ⟨2, "B2"⟩] 2).map Prod.snd
        = List.replicate 2 1) ∧
    ((_compute_sessions_per_subject [⟨1, "A1"⟩, ⟨2, "B2"⟩, ⟨3, "C3"⟩] 2).map Prod.snd
        = (List.range 3).map (fun i => if i < 2 then 1 else 0)) :=
  ⟨(quota_boundary_behavior [⟨1, "A1"⟩, ⟨2, "B2"⟩] 2).1 (by decide) (by decide),
   (quota_boundary_behavior [⟨1, "A1"⟩, ⟨2, "B2"⟩, ⟨3, "C3"⟩] 2).2 (by decide)⟩

/-! Claim C7. -/

/-- C7: an empty subject set and an empty teacher set each fail with their
own distinguishable error (a ValueError carrying the dedicated message),
before the solver runs - the outcome is the same for every solver oracle,
including none at all - and the failure result carries no entries. -/
theorem empty_catalog_errors_before_solving :
    (∀ sc teachers solve,
      generate_timetable_for_class sc [] teachers solve
        = .error (.valueError msgNoSubjects)) ∧
    (∀ sc subjects solve, subjects ≠ [] →
      generate_timetable_for_class sc subjects [] solve
        = .error (.valueError msgNoTeachers)) ∧
    GenError.valueError msgNoSubjects ≠ GenError.valueError msgNoTeachers := by
  refine ⟨fun sc teachers solve => rfl, fun sc subjects solve hs => ?_, by decide⟩
  cases subjects with
  | nil => exact absurd rfl hs
  | cons a tl => rfl

theorem empty_catalog_errors_witness :
    generate_timetable_for_class 0 [⟨1, "Maths"⟩] [] none
      = .error (.valueError msgNoTeachers) :=
  empty_catalog_errors_before_solving.2.1 0 [⟨1, "Maths"⟩] none (by decide)

/-! Claim C5. -/

/-- C5 counterexample: class 1 has a persisted timetable entry; regeneration
fails (no subjects); afterwards the database is empty - the previously
persisted row is no longer queryable. -/
theorem failed_regeneration_loses_previous_cex :
    (timetable_regenerate_for_class 1
          [{ school_class := 1, day_of_week := 0, period := 1, subject := 5, teacher := 7 }]
          [] [7] none).1
        = .error (.valueError msgNoSubjects) ∧
    (timetable_regenerate_for_class 1
          [{ school_class := 1, day_of_week := 0, period := 1, subject := 5, teacher := 7 }]
          [] [7] none).2 = [] ∧
    ([{ school_class := 1, day_of_week := 0, period := 1, subject := 5, teacher := 7 }]
        : List TimetableEntry) ≠ [] :=
  ⟨rfl, rfl, by decide⟩

/-- C5 amended: when a regeneration run fails at any point, the resulting
database is exactly the original minus every row of the class: the class is
left with no grid at all (its previous grid was deleted up front and only
the insert phase is transactional), never a half-written one, and rows of
other classes are untouched. -/
theorem failed_regeneration_leaves_empty_class_grid
    (sc : Nat) (db : List TimetableEntry) (subjects : List Subject)
    (teachers : List Nat) (solve : Option (Nat → Nat → Nat → Bool)) (e : GenError)
    (h : (timetable_regenerate_for_class sc db subjects teachers solve).1 = .error e) :
    (timetable_regenerate_for_class sc db subjects teachers solve).2
        = deleteClassEntries sc db ∧
    ((timetable_regenerate_for_class sc db subjects teachers solve).2).filter
        (fun x => x.school_class == sc) = [] := by
  cases hg : generate_timetable_for_class sc subjects teachers solve with
  | ok es =>
    exfalso
    unfold timetable_regenerate_for_class at h
    rw [hg] at h
    exact Except.noConfusion h
  | error e2 =>
    unfold timetable_regenerate_for_class
    rw [hg]
    refine ⟨rfl, ?_⟩
    show (deleteClassEntries sc db).filter (fun x => x.school_class == sc) = []
    rw [List.filter_eq_nil_iff]
    intro a ha
    unfold deleteClassEntries at ha
    rw [List.mem_filter] at ha
    simpa using ha.2

theorem failed_regeneration_witness :
    (timetable_regenerate_for_class 2
          [{ school_class := 2, day_of_week := 1, period := 3, subject := 4, teacher := 6 }]
          [⟨4, "Maths"⟩] [6] none).2
        = deleteClassEntries 2
            [{ school_class := 2, day_of_week := 1, period := 3, subject := 4, teacher := 6 }] ∧
    ((timetable_regenerate_for_class 2
          [{ school_class := 2, day_of_week := 1, period := 3, subject := 4, teacher := 6 }]
          [⟨4, "Maths"⟩] [6] none).2).filter (fun x => x.school_class == 2) = [] :=
  failed_regeneration_leaves_empty_class_grid 2
    [{ school_class := 2, day_of_week := 1, period := 3, subject := 4, teacher := 6 }]
    [⟨4, "Maths"⟩] [6] none (.runtimeError msgInfeasible) rfl

/-! Claim C1. -/

/-- C1 counterexample: a combined seeding run over two classes with a single
teacher succeeds, and its produced entries reference teacher 7 in both
class 10 and class 20 for the same slot (Monday, period 1). -/
theorem seed_run_double_books_teacher_cex :
    (seed_timetables [10, 20] [⟨1, "Maths"⟩] [7]).toOption.map
        (fun es => (es.filter
            (fun x => x.day_of_week == 0 && x.period == 1 && x.teacher == 7)).map
          (fun x => x.school_class))
      = some [10, 20] := by decide

/-- C1 amended: in a combined seeding run, two classes receive the same
teacher index in a slot exactly when their positions in the class list are
congruent modulo the teacher count: incongruent classes never collide in any
slot, while congruent classes collide in every slot (so whenever there are
more classes than teachers the run double-books some teacher). -/
theorem seed_teacher_collision_iff_congruent (i j d p T : Nat) (hT : 0 < T) :
    (i % T = j % T → seedTeacherIdx i d p T = seedTeacherIdx j d p T) ∧
    (i % T ≠ j % T → seedTeacherIdx i d p T ≠ seedTeacherIdx j d p T) := by
  constructor
  · intro hcong; unfold seedTeacherIdx; rw [hcong]
  · intro hne hcol
    apply hne
    unfold seedTeacherIdx at hcol
    have hmod : i % T ≡ j % T [MOD T] :=
      Nat.ModEq.add_left_cancel' (d * SEED_PERIODS.length + p) hcol
    have h1 : i % T % T = i % T := Nat.mod_eq_of_lt (Nat.mod_lt _ hT)
    have h2 : j % T % T = j % T := Nat.mod_eq_of_lt (Nat.mod_lt _ hT)
    rw [Nat.ModEq] at hmod
    rw [h1, h2] at hmod
    exact hmod

theorem seed_teacher_collision_witness :
    seedTeacherIdx 0 0 0 2 = seedTeacherIdx 2 0 0 2 ∧
    seedTeacherIdx 0 0 0 2 ≠ seedTeacherIdx 1 0 0 2 :=
  ⟨(seed_teacher_collision_iff_congruent 0 2 0 0 2 (by decide)).1 (by decide),
   (seed_teacher_collision_iff_congruent 0 1 0 0 2 (by decide)).2 (by decide)⟩

/-! Claim C6. -/

/-- C6 counterexample: in a combined run with one teacher and two classes,
the sole teacher is bound for class 1 in the Monday period-1 slot, yet the
pass binds the same teacher for class 2 in that slot and the run reports
success; no per-slot error of any kind is raised. -/
theorem binding_pass_assigns_committed_teacher_cex :
    (seed_timetables [1, 2] [⟨5, "Science"⟩] [9]).toOption.map
        (fun es => (es.filter
            (fun x => x.day_of_week == 0 && x.period == 1 && x.teacher == 9)).map
          (fun x => x.school_class))
      = some [1, 2] := by decide

/-- C6 amended: the teacher binding passes perform no availability check and
have no failure path: with nonempty catalogs the combined seeding run always
returns entries, and the per-class generator always returns entries whenever
the solve step succeeds, regardless of bindings already made for other
classes. -/
theorem binding_pass_always_succeeds (classes : List Nat)
    (subjects : List Subject) (teachers : List Nat)
    (hc : classes ≠ []) (hs : subjects ≠ []) (ht : teachers ≠ []) :
    (seed_timetables classes subjects teachers).isOk = true ∧
    (∀ sc x, (generate_timetable_for_class sc subjects teachers (some x)).isOk
        = true) := by
  constructor
  · cases classes with
    | nil => exact absurd rfl hc
    | cons c cl =>
      cases subjects with
      | nil => exact absurd rfl hs
      | cons s sl =>
        cases teachers with
        | nil => exact absurd rfl ht
        | cons t tl => rfl
  · intro sc x
    cases subjects with
    | nil => exact absurd rfl hs
    | cons s sl =>
      cases teachers with
      | nil => exact absurd rfl ht
      | cons t tl => rfl

theorem binding_pass_always_succeeds_witness :
    (seed_timetables [3] [⟨5, "Science"⟩] [9]).isOk = true ∧
    (generate_timetable_for_class 4 [⟨5, "Science"⟩] [9]
        (some fun _ _ _ => true)).isOk = true :=
  ⟨(binding_pass_always_succeeds [3] [⟨5, "Science"⟩] [9]
      (by decide) (by decide) (by decide)).1,
   (binding_pass_always_succeeds [3] [⟨5, "Science"⟩] [9]
      (by decide) (by decide) (by decide)).2 4 (fun _ _ _ => true)⟩

/-! Claim C10. -/

/-- C10: the by-class query view never returns a rendered grid for any
request state, and whenever the requested class exists the failure is
precisely the TypeError raised by applying range to the list constant DAYS
while building the grid. -/
theorem class_timetable_view_always_type_errors (class_id : Nat)
    (classes : List Nat) (db : List TimetableEntry) :
    (∀ grid, class_timetable_view class_id classes db ≠ .ok grid) ∧
    (class_id ∈ classes →
      class_timetable_view class_id classes db
        = .error (.typeError msgRangeOfList)) := by
  by_cases h : class_id ∈ classes
  · have heq : class_timetable_view class_id classes db
        = .error (.typeError msgRangeOfList) := by
      unfold class_timetable_view
      rw [if_pos h]
      rfl
    exact ⟨fun grid hg => by rw [heq] at hg; exact Except.noConfusion hg,
      fun _ => heq⟩
  · have heq : class_timetable_view class_id classes db
        = .error .doesNotExist := by
      unfold class_timetable_view
      rw [if_neg h]
      rfl
    exact ⟨fun grid hg => by rw [heq] at hg; exact Except.noConfusion hg,
      fun hmem => absurd hmem h⟩

theorem class_timetable_view_witness :
    class_timetable_view 1 [1, 2] [] = .error (.typeError msgRangeOfList) :=
  (class_timetable_view_always_type_errors 1 [1, 2] []).2 (by decide)

/-! Helper lemmas for the write phase. -/

theorem countP_one_find {α : Type} (l : List α) (p : α → Bool) (h : l.countP p = 1) :
    ∃ a, l.find? p = some a ∧ p a = true ∧ ∀ b ∈ l, p b = true → b = a := by
  induction l with
  | nil => simp at h
  | cons c l ih =>
    rw [List.countP_cons] at h
    cases hp : p c with
    | true =>
      rw [hp, if_pos rfl] at h
      have hzero : l.countP p = 0 := by omega
      have hnone : ∀ b ∈ l, ¬ p b := List.countP_eq_zero.mp hzero
      refine ⟨c, List.find?_cons_of_pos _ hp, hp, ?_⟩
      intro b hb hpb
      rcases List.mem_cons.mp hb with hbc | hbl
      · exact hbc
      · exact absurd hpb (hnone b hbl)
    | false =>
      rw [hp, if_neg (by simp)] at h
      obtain ⟨a, hfind, hpa, huniq⟩ := ih (by omega)
      refine ⟨a, ?_, hpa, ?_⟩
      · rw [List.find?_cons_of_neg _ (by simp [hp]), hfind]
      · intro b hb hpb
        rcases List.mem_cons.mp hb with hbc | hbl
        · subst hbc; rw [hp] at hpb; exact absurd hpb (by simp)
        · exact huniq b hbl hpb

theorem enum_countP_eq (x : Nat → Nat → Nat → Bool) (subjects : List Subject)
    (d p : Nat) :
    subjects.enum.countP (fun si => x d p si.1)
      = (List.range subjects.length).countP (fun s => x d p s) := by
  have h := List.countP_map (fun s => x d p s)
      (Prod.fst : Nat × Subject → Nat) subjects.enum
  rw [List.enum_map_fst] at h
  exact h.symm

theorem slotSequence_proj :
    slotSequence.map (fun s => (s.1.1, s.2.1)) = allSlotPairs := by decide

theorem slotSequence_grid :
    slotSequence.map (fun s => (s.1.2, s.2.2))
      = DAYS.flatMap (fun d => PERIODS.map (fun p => (d.1, p))) := by decide

theorem allSlotPairs_rank :
    allSlotPairs.map (fun dp => dp.1 * num_periods + dp.2)
      = List.range total_slots := by decide

theorem pickSubject_isSome_of_feasible (x : Nat → Nat → Nat → Bool)
    (subjects : List Subject) (hx : solutionFeasible x subjects) :
    ∀ s ∈ slotSequence, (pickSubject x subjects s.1.1 s.2.1).isSome = true := by
  intro s hs
  have hmem : (s.1.1, s.2.1) ∈ allSlotPairs := by
    rw [← slotSequence_proj]
    exact List.mem_map_of_mem _ hs
  have h1 := hx.1 _ hmem
  rw [← enum_countP_eq] at h1
  obtain ⟨a, hfind, -, -⟩ := countP_one_find _ _ h1
  unfold pickSubject
  rw [hfind]
  rfl

theorem writeLoop_pairs (sc : Nat) (subjects : List Subject) (teachers : List Nat)
    (x : Nat → Nat → Nat → Bool) (slots : List ((Nat × Nat) × (Nat × Nat)))
    (counter : Nat)
    (h : ∀ s ∈ slots, (pickSubject x subjects s.1.1 s.2.1).isSome = true) :
    (writeLoop sc subjects teachers x slots counter).map
        (fun e => (e.day_of_week, e.period))
      = slots.map (fun s => (s.1.2, s.2.2)) := by
  induction slots generalizing counter with
  | nil => rfl
  | cons s rest ih =>
    have hs := h s (List.mem_cons_self s rest)
    simp only [writeLoop]
    cases hp : pickSubject x subjects s.1.1 s.2.1 with
    | none => rw [hp] at hs; exact absurd hs (by simp)
    | some subj =>
      simp only [List.map_cons]
      rw [ih (counter + 1) (fun b hb => h b (List.mem_cons_of_mem _ hb))]

theorem writeLoop_teachers (sc : Nat) (subjects : List Subject)
    (teachers : List Nat) (x : Nat → Nat → Nat → Bool)
    (slots : List ((Nat × Nat) × (Nat × Nat))) (counter : Nat)
    (h : ∀ s ∈ slots, (pickSubject x subjects s.1.1 s.2.1).isSome = true) :
    (writeLoop sc subjects teachers x slots counter).map (fun e => e.teacher)
      = (List.range slots.length).map
          (fun n => teachers.getD ((counter + n) % teachers.length) 0) := by
  induction slots generalizing counter with
  | nil => rfl
  | cons s rest ih =>
    have hs := h s (List.mem_cons_self s rest)
    simp only [writeLoop]
    cases hp : pickSubject x subjects s.1.1 s.2.1 with
    | none => rw [hp] at hs; exact absurd hs (by simp)
    | some subj =>
      simp only [List.map_cons, List.length_cons]
      rw [List.range_succ_eq_map, List.map_cons, List.map_map]
      rw [show ((fun n => teachers.getD ((counter + n) % teachers.length) 0)
            ∘ Nat.succ)
          = (fun n => teachers.getD ((counter + 1 + n) % teachers.length) 0) from by
        funext n
        show teachers.getD ((counter + (n + 1)) % teachers.length) 0 = _
        rw [show counter + (n + 1) = counter + 1 + n from by omega]]
      rw [ih (counter + 1) (fun b hb => h b (List.mem_cons_of_mem _ hb))]
      simp

theorem writeLoop_count_subject (sc : Nat) (subjects : List Subject)
    (teachers : List Nat) (x : Nat → Nat → Nat → Bool)
    (slots : List ((Nat × Nat) × (Nat × Nat))) (counter : Nat) (sid : Nat) :
    (writeLoop sc subjects teachers x slots counter).countP
        (fun e => e.subject == sid)
      = slots.countP (fun s =>
          (pickSubject x subjects s.1.1 s.2.1).map Subject.id == some sid) := by
  induction slots generalizing counter with
  | nil => rfl
  | cons s rest ih =>
    simp only [writeLoop, List.countP_cons]
    cases hp : pickSubject x subjects s.1.1 s.2.1 with
    | none =>
      rw [ih counter]
      simp
    | some subj =>
      rw [List.countP_cons, ih (counter + 1)]
      simp [Option.map_some]

/-! Claim C2. -/

/-- C2: for every input with at least one subject and one teacher, a
successful run (the solver returned a constraint-satisfying assignment)
creates exactly total_slots = 30 entries, whose (day_of_week, period)
projections are exactly the 30 distinct grid cells, in row-major order -
the slot-to-entry mapping is a total function on the Day-Period grid. -/
theorem generate_fills_grid_totally (sc : Nat) (subjects : List Subject)
    (teachers : List Nat) (x : Nat → Nat → Nat → Bool)
    (hs : subjects ≠ []) (ht : teachers ≠ []) (hx : solutionFeasible x subjects) :
    generate_timetable_for_class sc subjects teachers (some x)
        = .ok (buildEntries sc subjects teachers x) ∧
    (buildEntries sc subjects teachers x).length = total_slots ∧
    ((buildEntries sc subjects teachers x).map (fun e => (e.day_of_week, e.period))
        = DAYS.flatMap (fun d => PERIODS.map (fun p => (d.1, p)))) ∧
    (DAYS.flatMap (fun d => PERIODS.map (fun p => (d.1, p)))).Nodup := by
  have hpick := pickSubject_isSome_of_feasible x subjects hx
  have hmap : (buildEntries sc subjects teachers x).map
      (fun e => (e.day_of_week, e.period))
      = DAYS.flatMap (fun d => PERIODS.map (fun p => (d.1, p))) := by
    unfold buildEntries
    rw [writeLoop_pairs sc subjects teachers x slotSequence 0 hpick, slotSequence_grid]
  refine ⟨?_, ?_, hmap, by decide⟩
  · cases subjects with
    | nil => exact absurd rfl hs
    | cons a tl =>
      cases teachers with
      | nil => exact absurd rfl ht
      | cons t tl2 => rfl
  · have hlen := congrArg List.length hmap
    rw [List.length_map] at hlen
    rw [hlen]
    decide

theorem generate_fills_grid_totally_witness :
    generate_timetable_for_class 0 [⟨1, "Maths"⟩] [7] (some fun _ _ _ => true)
        = .ok (buildEntries 0 [⟨1, "Maths"⟩] [7] (fun _ _ _ => true)) ∧
    (buildEntries 0 [⟨1, "Maths"⟩] [7] (fun _ _ _ => true)).length = total_slots ∧
    ((buildEntries 0 [⟨1, "Maths"⟩] [7] (fun _ _ _ => true)).map
        (fun e => (e.day_of_week, e.period))
        = DAYS.flatMap (fun d => PERIODS.map (fun p => (d.1, p)))) ∧
    (DAYS.flatMap (fun d => PERIODS.map (fun p => (d.1, p)))).Nodup :=
  generate_fills_grid_totally 0 [⟨1, "Maths"⟩] [7] (fun _ _ _ => true)
    (by decide) (by decide) (by decide)

/-! Helper lemmas for quota counting. -/

theorem feasible_length_pos (x : Nat → Nat → Nat → Bool) (subjects : List Subject)
    (hx : solutionFeasible x subjects) : 0 < subjects.length := by
  by_contra h
  have h0 : subjects.length = 0 := by omega
  have hmem : ((0, 0) : Nat × Nat) ∈ allSlotPairs := by decide
  have h1 := hx.1 _ hmem
  rw [h0] at h1
  simp at h1

theorem mem_enum_get (subjects : List Subject) (si : Nat × Subject)
    (h : si ∈ subjects.enum) :
    ∃ hi : si.1 < subjects.length, subjects.get ⟨si.1, hi⟩ = si.2 := by
  have h2 := List.mem_enum_iff_getElem?.mp h
  rw [List.getElem?_eq_some] at h2
  obtain ⟨hlt, heq⟩ := h2
  exact ⟨hlt, heq⟩

theorem nodup_ids_get_inj (subjects : List Subject)
    (hids : (subjects.map Subject.id).Nodup) (i j : Nat)
    (hi : i < subjects.length) (hj : j < subjects.length)
    (h : (subjects.get ⟨i, hi⟩).id = (subjects.get ⟨j, hj⟩).id) : i = j := by
  have hi2 : i < (subjects.map Subject.id).length := by simpa using hi
  have hj2 : j < (subjects.map Subject.id).length := by simpa using hj
  have h3 : (subjects.map Subject.id)[i] = (subjects.map Subject.id)[j] := by
    rw [List.getElem_map, List.getElem_map]
    exact h
  exact hids.getElem_inj_iff.mp h3

theorem lookup_enumFrom_map :
    ∀ (l : List Subject) (f : Nat → Nat) (n i : Nat),
      (l.map Subject.id).Nodup → ∀ hi : i < l.length,
      ((l.enumFrom n).map (fun p => (p.2.id, f p.1))).lookup (l.get ⟨i, hi⟩).id
        = some (f (n + i))
  | [], _, _, i, _, hi => absurd hi (by simp)
  | a :: tl, f, n, 0, _, _ => by simp [List.lookup]
  | a :: tl, f, n, i2 + 1, hnd, hi => by
    rw [List.map_cons, List.nodup_cons] at hnd
    have hi2 : i2 < tl.length := by simpa using hi
    have hkey : ((tl.get ⟨i2, hi2⟩).id == a.id) = false := by
      rw [beq_eq_false_iff_ne]
      intro hcontra
      have hmem : (tl.get ⟨i2, hi2⟩).id ∈ tl.map Subject.id :=
        List.mem_map_of_mem Subject.id (tl.get_mem i2 hi2)
      rw [hcontra] at hmem
      exact hnd.1 hmem
    show ((tl.enumFrom (n + 1)).map (fun p => (p.2.id, f p.1))
        |> (fun rest => List.lookup (tl.get ⟨i2, hi2⟩).id ((a.id, f n) :: rest)))
      = some (f (n + (i2 + 1)))
    simp only [List.lookup, hkey]
    rw [lookup_enumFrom_map tl f (n + 1) i2 hnd.2 hi2]
    rw [show n + 1 + i2 = n + (i2 + 1) from by omega]

theorem pick_eq_of_feasible (x : Nat → Nat → Nat → Bool)
    (subjects : List Subject) (hids : (subjects.map Subject.id).Nodup)
    (d p : Nat)
    (h1 : (List.range subjects.length).countP (fun s => x d p s) = 1)
    (i : Nat) (hi : i < subjects.length) :
    ((pickSubject x subjects d p).map Subject.id
        == some (subjects.get ⟨i, hi⟩).id)
      = x d p i := by
  rw [← enum_countP_eq] at h1
  obtain ⟨a, hfind, hpa, huniq⟩ := countP_one_find _ _ h1
  have hamem : a ∈ subjects.enum := List.mem_of_find?_eq_some hfind
  obtain ⟨ha1, ha2⟩ := mem_enum_get subjects a hamem
  unfold pickSubject
  rw [hfind]
  cases hxi : x d p i with
  | true =>
    have hmem : ((i, subjects.get ⟨i, hi⟩) : Nat × Subject) ∈ subjects.enum := by
      rw [List.mem_enum_iff_getElem?]
      rw [List.getElem?_eq_getElem hi]
      rfl
    have heqa := huniq _ hmem hxi
    rw [← heqa]
    simp
  | false =>
    rw [beq_eq_false_iff_ne]
    intro hcontra
    have hid : a.2.id = (subjects.get ⟨i, hi⟩).id := by simpa using hcontra
    rw [← ha2] at hid
    have hidx : a.1 = i := nodup_ids_get_inj subjects hids a.1 i ha1 hi hid
    rw [hidx] at hpa
    rw [hpa] at hxi
    exact Bool.noConfusion hxi

theorem map_getD_range (l : List Nat) :
    (List.range l.length).map (fun n => l.getD n 0) = l := by
  induction l with
  | nil => rfl
  | cons a tl ih =>
    rw [List.length_cons, List.range_succ_eq_map, List.map_cons, List.map_map]
    rw [show ((fun n => (a :: tl).getD n 0) ∘ Nat.succ)
        = (fun n => tl.getD n 0) from rfl]
    rw [ih]
    rfl

theorem count_flatMap_replicate (q : Nat → Nat) (n i : Nat) (hi : i < n) :
    ((List.range n).flatMap (fun j => List.replicate (q j) j)).count i = q i := by
  induction n with
  | zero => exact absurd hi (by omega)
  | succ n ih =>
    rw [List.range_succ, List.flatMap_append, List.count_append]
    rw [show [n].flatMap (fun j => List.replicate (q j) j)
        = List.replicate (q n) n from by simp]
    rw [List.count_replicate]
    rcases Nat.lt_or_ge i n with h | h
    · have hne : (n == i) = false := by
        rw [beq_eq_false_iff_ne]; omega
      rw [ih h, hne]
      simp
    · have hin : i = n := by omega
      subst hin
      have hz : ((List.range i).flatMap
          (fun j => List.replicate (q j) j)).count i = 0 := by
        rw [List.count_eq_zero]
        intro hmem
        rw [List.mem_flatMap] at hmem
        obtain ⟨j, hj, hv⟩ := hmem
        have hij := List.eq_of_mem_replicate hv
        have hjr := List.mem_range.mp hj
        omega
      rw [hz]
      simp

theorem canonicalSubjectList_length (S T : Nat) (hS : 0 < S) :
    (canonicalSubjectList S T).length = T := by
  unfold canonicalSubjectList
  rw [List.length_flatMap]
  simp only [Function.comp_def, List.length_replicate]
  exact quotaList_sum S T hS

theorem canonicalSubjectList_mem_lt (S T v : Nat)
    (h : v ∈ canonicalSubjectList S T) : v < S := by
  unfold canonicalSubjectList at h
  rw [List.mem_flatMap] at h
  obtain ⟨j, hj, hv⟩ := h
  rw [List.eq_of_mem_replicate hv]
  exact List.mem_range.mp hj

theorem countP_getD_eq_count (l : List Nat) (i : Nat) :
    (List.range l.length).countP (fun n => l.getD n 0 == i) = l.count i := by
  rw [show (List.range l.length).countP (fun n => l.getD n 0 == i)
      = ((List.range l.length).map (fun n => l.getD n 0)).countP
          (fun v => v == i) from
    (List.countP_map (fun v => v == i) (fun n => l.getD n 0)
      (List.range l.length)).symm]
  rw [map_getD_range]
  rfl

theorem canonical_feasible (subjects : List Subject)
    (hpos : 0 < subjects.length) (hids : (subjects.map Subject.id).Nodup) :
    solutionFeasible (canonicalAssign subjects.length total_slots) subjects := by
  have hlenL : (canonicalSubjectList subjects.length total_slots).length
      = total_slots :=
    canonicalSubjectList_length subjects.length total_slots hpos
  constructor
  · intro dp hdp
    have hrank : dp.1 * num_periods + dp.2 < total_slots := by
      have hmem : dp.1 * num_periods + dp.2 ∈ List.range total_slots := by
        rw [← allSlotPairs_rank]
        exact List.mem_map_of_mem _ hdp
      exact List.mem_range.mp hmem
    have hb : dp.1 * num_periods + dp.2
        < (canonicalSubjectList subjects.length total_slots).length := by
      rw [hlenL]; exact hrank
    have hvlt : (canonicalSubjectList subjects.length total_slots).getD
        (dp.1 * num_periods + dp.2) 0 < subjects.length := by
      apply canonicalSubjectList_mem_lt subjects.length total_slots
      rw [List.getD_eq_getElem _ _ hb]
      exact List.getElem_mem hb
    unfold canonicalAssign
    rw [List.countP_congr (q := fun s =>
        s == (canonicalSubjectList subjects.length total_slots).getD
          (dp.1 * num_periods + dp.2) 0)
      (by intro s _; simp only [beq_iff_eq]; exact eq_comm)]
    exact List.count_eq_one_of_mem (List.nodup_range subjects.length)
      (List.mem_range.mpr hvlt)
  · intro si hsi
    obtain ⟨hi1, hi2⟩ := mem_enum_get subjects si hsi
    rw [compute_sessions_eq_quotaFor]
    rw [show subjects.enum = subjects.enumFrom 0 from rfl]
    rw [← hi2]
    rw [lookup_enumFrom_map subjects
        (quotaFor subjects.length total_slots) 0 si.1 hids hi1]
    congr 1
    rw [Nat.zero_add]
    have hstep1 : allSlotPairs.countP
        (fun dp => canonicalAssign subjects.length total_slots dp.1 dp.2 si.1)
        = (List.range total_slots).countP (fun n =>
            (canonicalSubjectList subjects.length total_slots).getD n 0 == si.1) := by
      rw [← allSlotPairs_rank, List.countP_map]
      rfl
    rw [hstep1]
    have hstep2 : (List.range total_slots).countP (fun n =>
        (canonicalSubjectList subjects.length total_slots).getD n 0 == si.1)
        = (canonicalSubjectList subjects.length total_slots).count si.1 := by
      rw [show List.range total_slots
          = List.range (canonicalSubjectList subjects.length total_slots).length
          from by rw [hlenL]]
      exact countP_getD_eq_count _ si.1
    rw [hstep2]
    exact (count_flatMap_replicate
      (quotaFor subjects.length total_slots) subjects.length si.1 hi1).symm

/-! Claim C3. -/

/-- C3: in a successful run, for every subject the number of produced
entries carrying that subject equals exactly its computed quota (the solver
constraint demands exact equality and the write phase preserves it); the
quotas sum to exactly total_slots, and an exact-quota assignment always
exists (the canonical placement satisfies the model). -/
theorem generate_matches_quota_exactly (sc : Nat) (subjects : List Subject)
    (teachers : List Nat) (x : Nat → Nat → Nat → Bool)
    (hids : (subjects.map Subject.id).Nodup)
    (hx : solutionFeasible x subjects) :
    (∀ i, ∀ hi : i < subjects.length,
      (buildEntries sc subjects teachers x).countP
          (fun e => e.subject == (subjects.get ⟨i, hi⟩).id)
        = quotaFor subjects.length total_slots i) ∧
    (quotaList subjects.length total_slots).sum = total_slots ∧
    solutionFeasible (canonicalAssign subjects.length total_slots) subjects := by
  have hpos := feasible_length_pos x subjects hx
  refine ⟨?_, quotaList_sum _ _ hpos, canonical_feasible subjects hpos hids⟩
  intro i hi
  unfold buildEntries
  rw [writeLoop_count_subject]
  rw [List.countP_congr (q := fun s : (Nat × Nat) × (Nat × Nat) =>
      x s.1.1 s.2.1 i) ?hcong]
  case hcong =>
    intro s hs
    have hmem : (s.1.1, s.2.1) ∈ allSlotPairs := by
      rw [← slotSequence_proj]
      exact List.mem_map_of_mem _ hs
    rw [pick_eq_of_feasible x subjects hids s.1.1 s.2.1 (hx.1 _ hmem) i hi]
  have hstep : slotSequence.countP (fun s => x s.1.1 s.2.1 i)
      = allSlotPairs.countP (fun dp => x dp.1 dp.2 i) := by
    rw [← slotSequence_proj, List.countP_map]
    rfl
  rw [hstep]
  have hmem2 : ((i, subjects.get ⟨i, hi⟩) : Nat × Subject) ∈ subjects.enum := by
    rw [List.mem_enum_iff_getElem?]
    rw [List.getElem?_eq_getElem hi]
    rfl
  have hq := hx.2 _ hmem2
  rw [compute_sessions_eq_quotaFor] at hq
  rw [show subjects.enum = subjects.enumFrom 0 from rfl] at hq
  rw [lookup_enumFrom_map subjects
      (quotaFor subjects.length total_slots) 0 i hids hi] at hq
  have h5 : quotaFor subjects.length total_slots (0 + i)
      = allSlotPairs.countP (fun dp => x dp.1 dp.2 i) :=
    Option.some_inj.mp hq
  rw [← h5, Nat.zero_add]

theorem generate_matches_quota_witness :
    (buildEntries 0 [⟨1, "Maths"⟩, ⟨2, "Science"⟩] [7]
        (canonicalAssign 2 total_slots)).countP
        (fun e => e.subject
          == (([⟨1, "Maths"⟩, ⟨2, "Science"⟩] : List Subject).get ⟨0, by decide⟩).id)
      = quotaFor ([⟨1, "Maths"⟩, ⟨2, "Science"⟩] : List Subject).length total_slots 0 :=
  (generate_matches_quota_exactly 0 [⟨1, "Maths"⟩, ⟨2, "Science"⟩] [7]
      (canonicalAssign 2 total_slots) (by decide) (by decide)).1 0 (by decide)

/-! Helper lemmas for the round-robin teacher distribution. -/

theorem countP_range_mod (L i : Nat) (hL : 0 < L) (hi : i < L) (T : Nat) :
    (List.range T).countP (fun n => n % L == i)
      = T / L + if i < T % L then 1 else 0 := by
  induction T with
  | zero => simp
  | succ T ih =>
    rw [List.range_succ, List.countP_append, ih]
    have hsing : [T].countP (fun n => n % L == i)
        = if T % L = i then 1 else 0 := by
      by_cases h : T % L = i
      · simp [List.countP_cons, h]
      · simp [List.countP_cons, h]
    rw [hsing]
    have hr : T % L < L := Nat.mod_lt _ hL
    have hdm := Nat.div_add_mod T L
    by_cases hLast : T % L + 1 = L
    · have key : T + 1 = L * (T / L + 1) := by
        rw [Nat.mul_succ]
        omega
      have hq : (T + 1) / L = T / L + 1 := by
        rw [key, Nat.mul_div_cancel_left _ hL]
      have hm : (T + 1) % L = 0 := by
        rw [key, Nat.mul_mod_right]
      rw [hq, hm]
      by_cases hi2 : T % L = i
      · rw [if_pos hi2, if_neg (by omega : ¬ i < T % L),
          if_neg (by omega : ¬ i < 0)]
      · have hilt : i < T % L := by omega
        rw [if_neg hi2, if_pos hilt, if_neg (by omega : ¬ i < 0)]
    · have key : T + 1 = L * (T / L) + (T % L + 1) := by omega
      have hq : (T + 1) / L = T / L := by
        rw [key, Nat.mul_add_div hL,
          Nat.div_eq_of_lt (by omega : T % L + 1 < L)]
        omega
      have hm : (T + 1) % L = T % L + 1 := by
        rw [key, Nat.mul_add_mod,
          Nat.mod_eq_of_lt (by omega : T % L + 1 < L)]
      rw [hq, hm]
      by_cases hi2 : T % L = i
      · rw [if_pos hi2, if_neg (by omega : ¬ i < T % L),
          if_pos (by omega : i < T % L + 1)]
      · rw [if_neg hi2]
        by_cases h3 : i < T % L
        · rw [if_pos h3, if_pos (by omega : i < T % L + 1)]
        · rw [if_neg h3, if_neg (by omega : ¬ i < T % L + 1)]

theorem ceil_div_of_pos_mod (T L : Nat) (hL : 0 < L) (h : 0 < T % L) :
    (T + L - 1) / L = T / L + 1 := by
  have hdm := Nat.div_add_mod T L
  have hr : T % L < L := Nat.mod_lt _ hL
  have key : T + L - 1 = L * (T / L + 1) + (T % L - 1) := by
    rw [Nat.mul_succ]
    omega
  rw [key, Nat.mul_add_div hL, Nat.div_eq_of_lt (by omega : T % L - 1 < L)]

/-! Claim C9. -/

/-- C9: in a successful run, the teacher of the entry for the n-th slot in
row-major order is always the teacher at position n mod teacher_count of the
username-sorted pool, independently of the subject occupying the slot;
consequently each distinct teacher receives either floor or ceiling of
total_slots / teacher_count entries within the class grid. -/
theorem round_robin_teacher_schedule (sc : Nat) (subjects : List Subject)
    (teachers : List Nat) (x : Nat → Nat → Nat → Bool)
    (ht : teachers ≠ []) (htnd : teachers.Nodup)
    (hx : solutionFeasible x subjects) :
    ((buildEntries sc subjects teachers x).map (fun e => e.teacher)
        = (List.range total_slots).map
            (fun n => teachers.getD (n % teachers.length) 0)) ∧
    (∀ i, ∀ hi : i < teachers.length,
      (buildEntries sc subjects teachers x).countP
          (fun e => e.teacher == teachers.get ⟨i, hi⟩)
        = total_slots / teachers.length
      ∨ (buildEntries sc subjects teachers x).countP
          (fun e => e.teacher == teachers.get ⟨i, hi⟩)
        = (total_slots + teachers.length - 1) / teachers.length) := by
  have hpick := pickSubject_isSome_of_feasible x subjects hx
  have hmap : (buildEntries sc subjects teachers x).map (fun e => e.teacher)
      = (List.range total_slots).map
          (fun n => teachers.getD (n % teachers.length) 0) := by
    unfold buildEntries
    rw [writeLoop_teachers sc subjects teachers x slotSequence 0 hpick]
    rw [show slotSequence.length = total_slots from by decide]
    rw [show (fun n => teachers.getD ((0 + n) % teachers.length) 0)
        = (fun n => teachers.getD (n % teachers.length) 0) from by
      funext n; rw [Nat.zero_add]]
  refine ⟨hmap, ?_⟩
  intro i hi
  have hLpos : 0 < teachers.length := List.length_pos.mpr ht
  have hcount : (buildEntries sc subjects teachers x).countP
      (fun e => e.teacher == teachers.get ⟨i, hi⟩)
      = (List.range total_slots).countP (fun n => n % teachers.length == i) := by
    rw [show (buildEntries sc subjects teachers x).countP
          (fun e => e.teacher == teachers.get ⟨i, hi⟩)
        = ((buildEntries sc subjects teachers x).map (fun e => e.teacher)).countP
            (fun v => v == teachers.get ⟨i, hi⟩) from
      (List.countP_map (fun v => v == teachers.get ⟨i, hi⟩)
        (fun e : TimetableEntry => e.teacher) _).symm]
    rw [hmap, List.countP_map]
    apply List.countP_congr
    intro n _
    have hb : n % teachers.length < teachers.length := Nat.mod_lt _ hLpos
    show (teachers.getD (n % teachers.length) 0 == teachers.get ⟨i, hi⟩) = true
        ↔ (n % teachers.length == i) = true
    rw [List.getD_eq_getElem _ _ hb]
    simp only [beq_iff_eq]
    constructor
    · intro h
      exact htnd.getElem_inj_iff.mp h
    · intro h
      subst h
      rfl
  rw [hcount, countP_range_mod teachers.length i hLpos hi total_slots]
  by_cases hrem : i < total_slots % teachers.length
  · right
    rw [if_pos hrem]
    rw [ceil_div_of_pos_mod total_slots teachers.length hLpos (by omega)]
  · left
    rw [if_neg hrem]
    omega

theorem round_robin_teacher_witness :
    ((buildEntries 0 [⟨1, "Maths"⟩] [7, 8] (fun _ _ _ => true)).map
        (fun e => e.teacher)
        = (List.range total_slots).map
            (fun n => [7, 8].getD (n % ([7, 8] : List Nat).length) 0)) ∧
    ((buildEntries 0 [⟨1, "Maths"⟩] [7, 8] (fun _ _ _ => true)).countP
        (fun e => e.teacher == ([7, 8] : List Nat).get ⟨0, by decide⟩)
      = total_slots / ([7, 8] : List Nat).length
      ∨ (buildEntries 0 [⟨1, "Maths"⟩] [7, 8] (fun _ _ _ => true)).countP
        (fun e => e.teacher == ([7, 8] : List Nat).get ⟨0, by decide⟩)
      = (total_slots + ([7, 8] : List Nat).length - 1)
          / ([7, 8] : List Nat).length) :=
  ⟨(round_robin_teacher_schedule 0 [⟨1, "Maths"⟩] [7, 8] (fun _ _ _ => true)
      (by decide) (by decide) (by decide)).1,
   (round_robin_teacher_schedule 0 [⟨1, "Maths"⟩] [7, 8] (fun _ _ _ => true)
      (by decide) (by decide) (by decide)).2 0 (by decide)⟩
